import Mathlib

/-!
Shallow embedding of `src/tools.ts` of the deobfuscate-mcp-server repository.

The repository implements a queryable code-intelligence layer over a cached
decomposition of a JavaScript bundle: a process-wide single-slot cache
(`state.lastBundle`), a vendor-path classifier (`isVendorModule`), module
listing / fetching / searching, a symbol inventory (`listFunctions`),
a symbol-source extractor (`getSymbolSource`) and a call-graph builder
(`getCallGraph`).

External collaborators (the `webcrack` transform, the Babel parser, the
Prettier formatter and file reading) are modelled as explicit function
parameters; Babel syntax trees are modelled by the inductive `Ast` below,
and `@babel/traverse`'s pre-order visitation is modelled by the traversal
functions over `Ast`.  JavaScript `Map`s are modelled as association lists
in insertion order, which is the iteration order JavaScript guarantees.
-/

namespace DeobMcp

/-! ### Strings: JavaScript `String.prototype.includes`

`strContains s pat` models `s.includes(pat)`: a case-sensitive literal
substring test.  `SpecContains` is the specification-side statement of
substring containment, related to the scan by `strContains_iff`. -/

/-- Does the second character list start with the first one? -/
def startsWithChars : List Char → List Char → Bool
  | [], _ => true
  | _ :: _, [] => false
  | p :: ps, c :: cs => p == c && startsWithChars ps cs

/-- Scan for `pat` at every position of the subject list. -/
def containsChars (pat : List Char) : List Char → Bool
  | [] => startsWithChars pat []
  | c :: cs => startsWithChars pat (c :: cs) || containsChars pat cs

/-- Model of `s.includes(pat)`. -/
def strContains (s pat : String) : Bool :=
  containsChars pat.data s.data

/-- Specification-side literal substring containment. -/
def SpecContains (s pat : String) : Prop :=
  ∃ l r, s.data = l ++ pat.data ++ r

theorem startsWithChars_iff : ∀ p c : List Char,
    startsWithChars p c = true ↔ ∃ r, c = p ++ r
  | [], c => by simp [startsWithChars]
  | p :: ps, [] => by simp [startsWithChars]
  | p :: ps, c :: cs => by
      simp only [startsWithChars, Bool.and_eq_true, beq_iff_eq,
        startsWithChars_iff ps cs, List.cons_append]
      constructor
      · rintro ⟨rfl, r, rfl⟩; exact ⟨r, rfl⟩
      · rintro ⟨r, h⟩
        injection h with h1 h2
        exact ⟨h1.symm, r, h2⟩

theorem containsChars_iff : ∀ pat s : List Char,
    containsChars pat s = true ↔ ∃ l r, s = l ++ pat ++ r
  | pat, [] => by
      simp only [containsChars, startsWithChars_iff]
      constructor
      · rintro ⟨r, h⟩
        exact ⟨[], r, by simpa using h⟩
      · rintro ⟨l, r, h⟩
        obtain ⟨hlp, hr⟩ := List.append_eq_nil.mp h.symm
        obtain ⟨hl, hp⟩ := List.append_eq_nil.mp hlp
        exact ⟨r, by simp [hp, hr]⟩
  | pat, c :: cs => by
      simp only [containsChars, Bool.or_eq_true, startsWithChars_iff,
        containsChars_iff pat cs]
      constructor
      · rintro (⟨r, h⟩ | ⟨l, r, h⟩)
        · exact ⟨[], r, by simpa using h⟩
        · exact ⟨c :: l, r, by simp [h]⟩
      · rintro ⟨l, r, h⟩
        cases l with
        | nil => exact Or.inl ⟨r, by simpa using h⟩
        | cons x l' =>
            injection h with h1 h2
            exact Or.inr ⟨l', r, h2⟩

theorem strContains_iff (s pat : String) :
    strContains s pat = true ↔ SpecContains s pat :=
  containsChars_iff pat.data s.data

instance (s pat : String) : Decidable (SpecContains s pat) :=
  decidable_of_iff _ (strContains_iff s pat)

/-! ### JavaScript `Set`-based deduplication

`getCallGraph` deduplicates its edge lists with
`[...new Set(list.map(JSON.stringify))].map(JSON.parse)`.  On the flat
records pushed there, `JSON.stringify` is injective and deterministic, so
the round-trip keeps the first occurrence of each distinct record in
insertion order.  `dedupFirst` is exactly that operation. -/

/-- Keep the first occurrence of each element, in order. -/
def dedupFirst {α : Type} [DecidableEq α] : List α → List α
  | [] => []
  | x :: xs => x :: (dedupFirst xs).filter (fun y => y ≠ x)

theorem dedupFirst_nodup {α : Type} [DecidableEq α] :
    ∀ l : List α, (dedupFirst l).Nodup
  | [] => by simp [dedupFirst]
  | x :: xs => by
      rw [dedupFirst, List.nodup_cons]
      refine ⟨fun hmem => ?_, (dedupFirst_nodup xs).filter _⟩
      have := List.of_mem_filter hmem
      simp at this

/-! ### JavaScript `Map` as an insertion-ordered association list -/

/-- Model of `Map.prototype.get`. -/
def mapGet {α : Type} (m : List (String × α)) (k : String) : Option α :=
  (m.find? (fun p => p.1 == k)).map (·.2)

/-- Model of `Map.prototype.set`: update in place, else append. -/
def mapSet {α : Type} (m : List (String × α)) (k : String) (v : α) :
    List (String × α) :=
  if m.any (fun p => p.1 == k) then
    m.map (fun p => if p.1 == k then (k, v) else p)
  else m ++ [(k, v)]

theorem mapGet_map_update {α : Type} (k : String) (v : α) :
    ∀ m : List (String × α), m.any (fun p => p.1 == k) = true →
      mapGet (m.map (fun p => if p.1 == k then (k, v) else p)) k = some v := by
  intro m
  induction m with
  | nil => intro h; simp at h
  | cons p rest ih =>
      intro h
      by_cases hp : (p.1 == k) = true
      · simp [mapGet, List.find?, hp]
      · have hp' : (p.1 == k) = false := Bool.eq_false_iff.mpr hp
        rw [List.any_cons, hp', Bool.false_or] at h
        simpa [mapGet, List.find?, hp'] using ih h

theorem mapGet_append_new {α : Type} (k : String) (v : α) :
    ∀ m : List (String × α), m.any (fun p => p.1 == k) = false →
      mapGet (m ++ [(k, v)]) k = some v := by
  intro m
  induction m with
  | nil => intro _; simp [mapGet, List.find?]
  | cons p rest ih =>
      intro h
      rw [List.any_cons, Bool.or_eq_false_iff] at h
      simpa [mapGet, List.find?, h.1] using ih h.2

theorem mapGet_mapSet_self {α : Type} (k : String) (v : α)
    (m : List (String × α)) : mapGet (mapSet m k v) k = some v := by
  rw [mapSet]
  by_cases h : m.any (fun p => p.1 == k) = true
  · rw [if_pos h]; exact mapGet_map_update k v m h
  · rw [if_neg h]
    exact mapGet_append_new k v m (Bool.eq_false_iff.mpr h)

theorem mapSet_ne_nil {α : Type} (m : List (String × α)) (k : String) (v : α) :
    mapSet m k v ≠ [] := by
  rw [mapSet]
  split
  · rename_i hany
    cases m with
    | nil => simp at hany
    | cons p rest => simp
  · simp

/-! ### Origin classifier (`isVendorModule`, tools.ts lines 321-336) -/

/-- The fixed vendor path patterns of `isVendorModule`. -/
def vendorPatterns : List String :=
  ["node_modules", "webpack/runtime", "webpack/bootstrap", "(webpack)",
   "vendor/", "bower_components", "jspm_packages", "shims/"]

/-- Model of `path.replace(/\\/g, "/")`: normalize backslashes to
forward slashes, character by character. -/
def normalizeSlashes (path : String) : String :=
  ⟨path.data.map (fun c => if c = '\\' then '/' else c)⟩

/-- Model of `isVendorModule`.  `if (!path) return false` is the JS falsy
check, which on strings is the empty-string test. -/
def isVendorModule (path : String) : Bool :=
  if path = "" then false
  else vendorPatterns.any (fun pattern => strContains (normalizeSlashes path) pattern)

/-! ### Babel syntax trees

The tools inspect only these node shapes: function / class declarations,
function and arrow expressions, class and object methods, variable
declarations and declarators, call and member expressions, identifiers and
the parameter patterns.  Every other node kind only matters as a carrier of
children for the pre-order traversal, and is represented by `otherNode`
with its Babel type tag.  `NodeInfo` carries the character span
(`node.start`/`node.end`) and the 1-based line span (`node.loc.start.line`
/ `node.loc.end.line`) that the tools read off a parsed node. -/

structure NodeInfo where
  startPos : Nat
  endPos : Nat
  startLine : Nat
  endLine : Nat
deriving DecidableEq, Repr

/-- Babel AST fragment.  Children are listed in Babel's visitation order.
Function and class declaration identifiers are carried as plain names
(the code only ever reads `node.id?.name` on them), while variable
declarator ids, member objects/properties, call callees, method keys and
parameter patterns are full child nodes, because the code pattern-matches
on their node type. -/
inductive Ast where
  | fnDecl (info : NodeInfo) (id : Option String) (params : List Ast) (body : Ast)
  | fnExpr (info : NodeInfo) (params : List Ast) (body : Ast)
  | arrowFnExpr (info : NodeInfo) (params : List Ast) (body : Ast)
  | classDecl (info : NodeInfo) (id : Option String) (body : List Ast)
  | classMethod (info : NodeInfo) (key : Ast) (params : List Ast) (body : Ast)
  | objectMethod (info : NodeInfo) (key : Ast) (params : List Ast) (body : Ast)
  | varDecl (info : NodeInfo) (kw : String) (decls : List Ast)
  | varDeclarator (info : NodeInfo) (idPat : Ast) (init : Option Ast)
  | callExpr (info : NodeInfo) (callee : Ast) (args : List Ast)
  | memberExpr (info : NodeInfo) (obj : Ast) (prop : Ast)
  | identifier (info : NodeInfo) (name : String)
  | assignPattern (info : NodeInfo) (left : Ast) (right : Ast)
  | restElement (info : NodeInfo) (arg : Ast)
  | objectPattern (info : NodeInfo) (props : List Ast)
  | arrayPattern (info : NodeInfo) (elems : List Ast)
  | otherNode (info : NodeInfo) (tag : String) (children : List Ast)

/-- The `NodeInfo` of a node. -/
def astInfo : Ast → NodeInfo
  | .fnDecl i _ _ _ => i
  | .fnExpr i _ _ => i
  | .arrowFnExpr i _ _ => i
  | .classDecl i _ _ => i
  | .classMethod i _ _ _ => i
  | .objectMethod i _ _ _ => i
  | .varDecl i _ _ => i
  | .varDeclarator i _ _ => i
  | .callExpr i _ _ => i
  | .memberExpr i _ _ => i
  | .identifier i _ => i
  | .assignPattern i _ _ => i
  | .restElement i _ => i
  | .objectPattern i _ => i
  | .arrayPattern i _ => i
  | .otherNode i _ _ => i

/-- Babel's `t.isFunction` (also the stopping predicate of
`path.getFunctionParent()`): function declarations/expressions, arrow
functions, object methods and class methods. -/
def isFunctionNode : Ast → Bool
  | .fnDecl _ _ _ _ => true
  | .fnExpr _ _ _ => true
  | .arrowFnExpr _ _ _ => true
  | .classMethod _ _ _ _ => true
  | .objectMethod _ _ _ _ => true
  | _ => false

/-! ### Parameter rendering (`getParamNames`, tools.ts lines 413-420) -/

/-- One parameter of `getParamNames`: identifier, identifier with default,
named rest element, anything else is the `{destructured}` placeholder. -/
def renderParam : Ast → String
  | .identifier _ n => n
  | .assignPattern _ (.identifier _ n) _ => n ++ "?"
  | .restElement _ (.identifier _ n) => "..." ++ n
  | _ => "{destructured}"

/-- Model of `getParamNames`. -/
def getParamNames (params : List Ast) : List String :=
  params.map renderParam

/-! ### Call-graph edge records -/

structure OutEdge where
  name : String
  line : Nat
deriving DecidableEq, Repr

structure InEdge where
  callerModuleId : String
  callerName : String
  line : Nat
deriving DecidableEq, Repr

/-- The target-declaration test of `getCallGraph`'s outgoing phase
(tools.ts lines 526-529).  The source tests
`t.isFunction(init) || t.isArrowFunctionExpression(init)`; `t.isFunction`
already covers arrow functions, so the disjunction is `isFunctionNode`. -/
def isTarget (symbolName : String) : Ast → Bool
  | .fnDecl _ (some n) _ _ => n == symbolName
  | .varDeclarator _ (.identifier _ n) (some init) =>
      n == symbolName && isFunctionNode init
  | .classDecl _ (some n) _ => n == symbolName
  | _ => false

/-- Callee naming of the outgoing phase (tools.ts lines 536-546): a bare
identifier yields its name; a member expression with identifier property
yields `"<object>.<property>"` when the object is a bare identifier and
`".<property>"` otherwise; every other shape yields the empty string,
which the `if (calleeName)` guard then drops. -/
def calleeNameOf : Ast → String
  | .identifier _ n => n
  | .memberExpr _ obj prop =>
      (match prop with
       | .identifier _ pn =>
           (match obj with
            | .identifier _ objName => objName ++ "." ++ pn
            | _ => "." ++ pn)
       | _ => "")
  | _ => ""

/-- The outgoing edge recorded for a node when it is a call expression
with a nameable callee. -/
def edgeOfCall : Ast → Option OutEdge
  | .callExpr i callee _ =>
      let n := calleeNameOf callee
      if n = "" then none else some ⟨n, i.startLine⟩
  | _ => none

/-- The incoming phase's callee test (tools.ts lines 589-594): a bare
identifier equal to the symbol, or a member expression whose identifier
property equals the symbol. -/
def calleeMatches (symbolName : String) : Ast → Bool
  | .identifier _ n => n == symbolName
  | .memberExpr _ _ (.identifier _ pn) => pn == symbolName
  | _ => false

/-- Holds iff the node is a call expression whose callee matches. -/
def isMatchingCall (symbolName : String) : Ast → Bool
  | .callExpr _ callee _ => calleeMatches symbolName callee
  | _ => false

/-- Caller labelling given the nearest enclosing function-like node and its
own parent (tools.ts lines 601-616).  The if/else-if chain has no final
else, so unnamed function declarations, object methods and class methods
with non-identifier keys leave `callerName` at `"(top-level)"`. -/
def labelForFunc (parentFunc : Ast) (funcParent? : Option Ast) : String :=
  match parentFunc with
  | .fnDecl _ (some n) _ _ => n
  | .fnExpr _ _ _ =>
      (match funcParent? with
       | some (.varDeclarator _ (.identifier _ vn) _) => vn
       | some (.classMethod _ (.identifier _ kn) _ _) => kn
       | _ => "(anonymous function)")
  | .arrowFnExpr _ _ _ =>
      (match funcParent? with
       | some (.varDeclarator _ (.identifier _ vn) _) => vn
       | some (.classMethod _ (.identifier _ kn) _ _) => kn
       | _ => "(anonymous function)")
  | .classMethod _ (.identifier _ kn) _ _ => kn
  | _ => "(top-level)"

/-- Caller resolution for a call site: walk the ancestor stack (nearest
first) to the first function-like node, as `path.getFunctionParent()`
does, then label it; no enclosing function yields `"(top-level)"`. -/
def resolveCaller : List Ast → String
  | [] => "(top-level)"
  | f :: rest =>
      if isFunctionNode f then labelForFunc f rest.head? else resolveCaller rest

/-! ### Symbol locator match (`getSymbolSource`, tools.ts lines 167-190) -/

/-- The per-node match of `getSymbolSource`'s `enter` visitor, given the
ancestor stack (nearest first).  A variable declarator match is promoted
to its parent when that parent is a variable declaration; function and
class declarations match on their identifier.  The returned value is the
`(node.start, node.end)` span that the source slices out of the text. -/
def symbolMatchSpan (symbolName : String) (anc : List Ast) : Ast → Option (Nat × Nat)
  | .fnDecl i (some n) _ _ =>
      if n == symbolName then some (i.startPos, i.endPos) else none
  | .classDecl i (some n) _ =>
      if n == symbolName then some (i.startPos, i.endPos) else none
  | .varDeclarator i (.identifier _ n) _ =>
      if n == symbolName then
        match anc.head? with
        | some (.varDecl pi _ _) => some (pi.startPos, pi.endPos)
        | _ => some (i.startPos, i.endPos)
      else none
  | _ => none

/-! ### Traversals

`@babel/traverse` visits every node of a tree in pre-order.  `callsIn`
is the inner `path.traverse({ CallExpression(...) })` of the outgoing
phase; `outgoingScan` is its outer `enter` visitor with `path.skip()`;
`preoAnc` enumerates all nodes with their ancestor stacks (nearest first)
and underlies the visitors that need parent access. -/

mutual
/-- Outgoing edges of every call expression in a subtree, the subtree root
included, in visitation order. -/
def callsIn : Ast → List OutEdge
  | .fnDecl _ _ params body => callsInL params ++ callsIn body
  | .fnExpr _ params body => callsInL params ++ callsIn body
  | .arrowFnExpr _ params body => callsInL params ++ callsIn body
  | .classDecl _ _ body => callsInL body
  | .classMethod _ key params body => callsIn key ++ (callsInL params ++ callsIn body)
  | .objectMethod _ key params body => callsIn key ++ (callsInL params ++ callsIn body)
  | .varDecl _ _ decls => callsInL decls
  | .varDeclarator _ idPat none => callsIn idPat
  | .varDeclarator _ idPat (some init) => callsIn idPat ++ callsIn init
  | .callExpr i callee args =>
      (edgeOfCall (.callExpr i callee args)).toList ++ (callsIn callee ++ callsInL args)
  | .memberExpr _ obj prop => callsIn obj ++ callsIn prop
  | .identifier _ _ => []
  | .assignPattern _ left right => callsIn left ++ callsIn right
  | .restElement _ arg => callsIn arg
  | .objectPattern _ props => callsInL props
  | .arrayPattern _ elems => callsInL elems
  | .otherNode _ _ children => callsInL children

def callsInL : List Ast → List OutEdge
  | [] => []
  | a :: rest => callsIn a ++ callsInL rest
end

mutual
/-- The outgoing phase's outer traversal (tools.ts lines 523-559): each
visited declaration matching the symbol contributes every call expression
of its subtree (inner traversal) and is then skipped (`path.skip()`);
every other node just recurses into its children.  Only function
declarations, initialized variable declarators and class declarations can
satisfy the target test, so it is inlined on those constructors. -/
def outgoingScan (symbolName : String) : Ast → List OutEdge
  | .fnDecl i id params body =>
      if isTarget symbolName (.fnDecl i id params body) then
        callsIn (.fnDecl i id params body)
      else outgoingScanL symbolName params ++ outgoingScan symbolName body
  | .fnExpr _ params body =>
      outgoingScanL symbolName params ++ outgoingScan symbolName body
  | .arrowFnExpr _ params body =>
      outgoingScanL symbolName params ++ outgoingScan symbolName body
  | .classDecl i id body =>
      if isTarget symbolName (.classDecl i id body) then
        callsIn (.classDecl i id body)
      else outgoingScanL symbolName body
  | .classMethod _ key params body =>
      outgoingScan symbolName key ++
        (outgoingScanL symbolName params ++ outgoingScan symbolName body)
  | .objectMethod _ key params body =>
      outgoingScan symbolName key ++
        (outgoingScanL symbolName params ++ outgoingScan symbolName body)
  | .varDecl _ _ decls => outgoingScanL symbolName decls
  | .varDeclarator _ idPat none => outgoingScan symbolName idPat
  | .varDeclarator i idPat (some init) =>
      if isTarget symbolName (.varDeclarator i idPat (some init)) then
        callsIn (.varDeclarator i idPat (some init))
      else outgoingScan symbolName idPat ++ outgoingScan symbolName init
  | .callExpr _ callee args =>
      outgoingScan symbolName callee ++ outgoingScanL symbolName args
  | .memberExpr _ obj prop =>
      outgoingScan symbolName obj ++ outgoingScan symbolName prop
  | .identifier _ _ => []
  | .assignPattern _ left right =>
      outgoingScan symbolName left ++ outgoingScan symbolName right
  | .restElement _ arg => outgoingScan symbolName arg
  | .objectPattern _ props => outgoingScanL symbolName props
  | .arrayPattern _ elems => outgoingScanL symbolName elems
  | .otherNode _ _ children => outgoingScanL symbolName children

def outgoingScanL (symbolName : String) : List Ast → List OutEdge
  | [] => []
  | a :: rest => outgoingScan symbolName a ++ outgoingScanL symbolName rest
end

mutual
/-- Pre-order enumeration of all nodes, each paired with its ancestor
stack (nearest ancestor first) relative to the traversed root. -/
def preoAnc (anc : List Ast) : Ast → List (List Ast × Ast)
  | .fnDecl i id params body =>
      let n : Ast := .fnDecl i id params body
      (anc, n) :: (preoAncL (n :: anc) params ++ preoAnc (n :: anc) body)
  | .fnExpr i params body =>
      let n : Ast := .fnExpr i params body
      (anc, n) :: (preoAncL (n :: anc) params ++ preoAnc (n :: anc) body)
  | .arrowFnExpr i params body =>
      let n : Ast := .arrowFnExpr i params body
      (anc, n) :: (preoAncL (n :: anc) params ++ preoAnc (n :: anc) body)
  | .classDecl i id body =>
      let n : Ast := .classDecl i id body
      (anc, n) :: preoAncL (n :: anc) body
  | .classMethod i key params body =>
      let n : Ast := .classMethod i key params body
      (anc, n) ::
        (preoAnc (n :: anc) key ++ (preoAncL (n :: anc) params ++ preoAnc (n :: anc) body))
  | .objectMethod i key params body =>
      let n : Ast := .objectMethod i key params body
      (anc, n) ::
        (preoAnc (n :: anc) key ++ (preoAncL (n :: anc) params ++ preoAnc (n :: anc) body))
  | .varDecl i kw decls =>
      let n : Ast := .varDecl i kw decls
      (anc, n) :: preoAncL (n :: anc) decls
  | .varDeclarator i idPat none =>
      let n : Ast := .varDeclarator i idPat none
      (anc, n) :: preoAnc (n :: anc) idPat
  | .varDeclarator i idPat (some init) =>
      let n : Ast := .varDeclarator i idPat (some init)
      (anc, n) :: (preoAnc (n :: anc) idPat ++ preoAnc (n :: anc) init)
  | .callExpr i callee args =>
      let n : Ast := .callExpr i callee args
      (anc, n) :: (preoAnc (n :: anc) callee ++ preoAncL (n :: anc) args)
  | .memberExpr i obj prop =>
      let n : Ast := .memberExpr i obj prop
      (anc, n) :: (preoAnc (n :: anc) obj ++ preoAnc (n :: anc) prop)
  | .identifier i nm => [(anc, .identifier i nm)]
  | .assignPattern i left right =>
      let n : Ast := .assignPattern i left right
      (anc, n) :: (preoAnc (n :: anc) left ++ preoAnc (n :: anc) right)
  | .restElement i arg =>
      let n : Ast := .restElement i arg
      (anc, n) :: preoAnc (n :: anc) arg
  | .objectPattern i props =>
      let n : Ast := .objectPattern i props
      (anc, n) :: preoAncL (n :: anc) props
  | .arrayPattern i elems =>
      let n : Ast := .arrayPattern i elems
      (anc, n) :: preoAncL (n :: anc) elems
  | .otherNode i tag children =>
      let n : Ast := .otherNode i tag children
      (anc, n) :: preoAncL (n :: anc) children

def preoAncL (anc : List Ast) : List Ast → List (List Ast × Ast)
  | [] => []
  | a :: rest => preoAnc anc a ++ preoAncL anc rest
end

/-- All nodes of a tree in pre-order. -/
def preorderNodes (a : Ast) : List Ast :=
  (preoAnc [] a).map (·.2)

/-- Incoming scan of one parsed unit (tools.ts lines 586-625): every call
expression whose callee matches the symbol yields an edge whose caller is
resolved from the ancestor stack of the call site. -/
def incomingIn (symbolName modId : String) (a : Ast) : List InEdge :=
  (preoAnc [] a).filterMap (fun p =>
    if isMatchingCall symbolName p.2 then
      some ⟨modId, resolveCaller p.1, (astInfo p.2).startLine⟩
    else none)

/-- The symbol locator of `getSymbolSource`: pre-order traversal, first
match wins (`if (foundCode) return` freezes the result), returning the
`(node.start, node.end)` span later sliced out of the source text. -/
def findSymbol (symbolName : String) (a : Ast) : Option (Nat × Nat) :=
  ((preoAnc [] a).filterMap (fun p => symbolMatchSpan symbolName p.1 p.2)).head?

/-! ### Symbol inventory (`listFunctions`, tools.ts lines 395-501) -/

structure FnInfo where
  moduleId : String
  modulePath : String
  name : String
  type : String
  line : Nat
  params : List String
  lines : Nat
  signature : String
deriving DecidableEq, Repr

/-- The three visitors of `listFunctions` (tools.ts lines 428-494), as
the descriptor a single visited node contributes. -/
def descriptorOf (modId modPath : String) : Ast → Option FnInfo
  | .fnDecl i (some n) params _ =>
      let ps := getParamNames params
      some { moduleId := modId, modulePath := modPath, name := n,
             type := "function", line := i.startLine, params := ps,
             lines := i.endLine - i.startLine + 1,
             signature := "function " ++ n ++ "(" ++ String.intercalate ", " ps ++ ")" }
  | .classDecl i (some n) _ =>
      some { moduleId := modId, modulePath := modPath, name := n,
             type := "class", line := i.startLine, params := [],
             lines := i.endLine - i.startLine + 1,
             signature := "class " ++ n }
  | .varDeclarator i (.identifier _ n) (some init) =>
      (match init with
       | .arrowFnExpr _ ps _ =>
           let params := getParamNames ps
           some { moduleId := modId, modulePath := modPath, name := n,
                  type := "variable_function", line := i.startLine,
                  params := params, lines := i.endLine - i.startLine + 1,
                  signature := "const " ++ n ++ " = (" ++ String.intercalate ", " params ++ ") =>" }
       | .fnExpr _ ps _ =>
           let params := getParamNames ps
           some { moduleId := modId, modulePath := modPath, name := n,
                  type := "variable_function", line := i.startLine,
                  params := params, lines := i.endLine - i.startLine + 1,
                  signature := "const " ++ n ++ " = function(" ++ String.intercalate ", " params ++ ")" }
       | _ => none)
  | _ => none

/-- Per-unit scan of `listFunctions`: the visitors fire on each node in
pre-order. -/
def scanUnitFns (modId modPath : String) (a : Ast) : List FnInfo :=
  (preorderNodes a).filterMap (descriptorOf modId modPath)

/-! ### Server state and tool errors -/

/-- One cached unit: `{id, path, code}`. -/
structure Module where
  id : String
  path : String
  code : String
deriving DecidableEq, Repr

/-- The payload of `state.lastBundle`: `{ modules }`, a JS `Map` in
insertion order. -/
structure Bundle where
  modules : List (String × Module)
deriving DecidableEq, Repr

/-- The process-wide mutable state (tools.ts lines 28-30). -/
structure ServerState where
  lastBundle : Option Bundle
deriving DecidableEq, Repr

/-- The typed failures thrown by the tools. -/
inductive ToolError where
  | noBundle
  | unitNotFound (id : String)
  | symbolNotFound (name : String)
  | invalidPattern (query : String)
  | missingInput
  | parseFailure (msg : String)
  | transformError (msg : String)
  | fileError (msg : String)
deriving DecidableEq, Repr

/-! ### The tools

Each tool is modelled as an explicit state transformer
`ServerState → result × ServerState`, mirroring how the JS functions read
and (only in `deobfuscate`) assign the module-global `state.lastBundle`. -/

/-- A `list_modules` result entry `{id, path, size, isVendor}`. -/
structure ModListEntry where
  id : String
  path : String
  size : Nat
  isVendor : Bool
deriving DecidableEq, Repr

/-- Model of `listModules` (tools.ts lines 338-355). -/
def listModules (excludeVendor : Bool) (st : ServerState) :
    Except ToolError (List ModListEntry) × ServerState :=
  (match st.lastBundle with
   | none => .error .noBundle
   | some b =>
     let mods := b.modules.map (·.2)
     let mods := if excludeVendor then mods.filter (fun m => !(isVendorModule m.path)) else mods
     .ok (mods.map (fun m => ⟨m.id, m.path, m.code.length, isVendorModule m.path⟩)),
   st)

/-- Model of `getModule` (tools.ts lines 357-366); the Prettier formatting
of the returned code is external, so the result is the module's code. -/
def getModule (id : String) (st : ServerState) :
    Except ToolError String × ServerState :=
  (match st.lastBundle with
   | none => .error .noBundle
   | some b =>
     match mapGet b.modules id with
     | none => .error (.unitNotFound id)
     | some m => .ok m.code,
   st)

/-- A `search_modules` result entry `{id, path}`. -/
structure SearchHit where
  id : String
  path : String
deriving DecidableEq, Repr

/-- Model of `searchModules` (tools.ts lines 368-393).  `newRegExp`
models the JS `RegExp` constructor: given a pattern and flags it returns
a matcher, or `none` when the pattern is invalid (`new RegExp` throws);
the source always compiles with the `"i"` (case-insensitive) flag. -/
def searchModules (newRegExp : String → String → Option (String → Bool))
    (query : String) (isRegex : Bool) (limit : Nat) (st : ServerState) :
    Except ToolError (List SearchHit) × ServerState :=
  (match st.lastBundle with
   | none => .error .noBundle
   | some b =>
     if isRegex then
       match newRegExp query "i" with
       | none => .error (.invalidPattern query)
       | some tst =>
           .ok ((((b.modules.map (·.2)).filter (fun m => tst m.code)).map
             (fun m => SearchHit.mk m.id m.path)).take limit)
     else
       .ok ((((b.modules.map (·.2)).filter (fun m => strContains m.code query)).map
         (fun m => SearchHit.mk m.id m.path)).take limit),
   st)

/-- Model of `listFunctions` (tools.ts lines 395-501).  `parse` models
`parser.parse`; a unit that fails to parse contributes nothing and does
not abort the scan.  The `results.length >= limit` early break is the
fold guard; the final `slice(0, limit)` is the `take`. -/
def listFunctions (parse : String → Except String Ast) (moduleId : Option String)
    (limit : Nat) (st : ServerState) :
    Except ToolError (List FnInfo) × ServerState :=
  (match st.lastBundle with
   | none => .error .noBundle
   | some b =>
     let pick : Except ToolError (List Module) :=
       match moduleId with
       | some mid =>
           (match mapGet b.modules mid with
            | none => .error (.unitNotFound mid)
            | some m => .ok [m])
       | none => .ok (b.modules.map (·.2))
     match pick with
     | .error e => .error e
     | .ok modulesToScan =>
         .ok ((modulesToScan.foldl (fun acc m =>
             if limit ≤ acc.length then acc
             else acc ++ (match parse m.code with
               | .ok ast => scanUnitFns m.id m.path ast
               | .error _ => [])) []).take limit),
   st)

/-- A call graph as returned by `getCallGraph`. -/
structure CallGraph where
  symbol : String
  moduleId : String
  outgoing : List OutEdge
  incoming : List InEdge
deriving DecidableEq, Repr

/-- Model of `getCallGraph` (tools.ts lines 503-636).  The outgoing phase
parses the target unit and runs the skip-traversal; the incoming phase
scans either every cached unit whose raw text contains the symbol (when
`scanAllModules` is set) or just the target unit; parse failures in
either phase contribute nothing; both edge lists are deduplicated (first
occurrences, in order) before return. -/
def getCallGraph (parse : String → Except String Ast)
    (symbolName moduleId : String) (scanAllModules : Bool) (st : ServerState) :
    Except ToolError CallGraph × ServerState :=
  (match st.lastBundle with
   | none => .error .noBundle
   | some b =>
     match mapGet b.modules moduleId with
     | none => .error (.unitNotFound moduleId)
     | some target =>
       let outgoing : List OutEdge :=
         match parse target.code with
         | .ok ast => outgoingScan symbolName ast
         | .error _ => []
       let modulesToScan : List Module :=
         if scanAllModules then
           (b.modules.map (·.2)).filter (fun m => strContains m.code symbolName)
         else [target]
       let incoming : List InEdge :=
         modulesToScan.flatMap (fun m =>
           match parse m.code with
           | .ok ast => incomingIn symbolName m.id ast
           | .error _ => [])
       .ok { symbol := symbolName, moduleId := moduleId,
             outgoing := dedupFirst outgoing, incoming := dedupFirst incoming },
   st)

/-- Model of `getSymbolSource` (tools.ts lines 148-195).  `parse` models
`parser.parse` and `rf` models `readFile`.  A file path is read first;
a supplied module id then overrides the source text and is the only path
that consults the cache.  The slice of the found span and its Prettier
formatting are external, so the result is the `(start, end)` span of the
located node. -/
def getSymbolSource (parse : String → Except String Ast)
    (rf : String → Except ToolError String) (symbolName : String)
    (code : Option String) (moduleId : Option String) (filePath : Option String)
    (st : ServerState) : Except ToolError (Nat × Nat) × ServerState :=
  let resolved : Except ToolError (Option String) :=
    match filePath with
    | some p => (rf p).map some
    | none => .ok code
  (match resolved with
   | .error e => .error e
   | .ok sourceCode =>
     let afterModule : Except ToolError (Option String) :=
       match moduleId with
       | some mid =>
           (match st.lastBundle with
            | none => .error .noBundle
            | some b =>
                match mapGet b.modules mid with
                | none => .error (.unitNotFound mid)
                | some m => .ok (some m.code))
       | none => .ok sourceCode
     match afterModule with
     | .error e => .error e
     | .ok sc =>
       match sc with
       | none => .error .missingInput
       | some s =>
         if s = "" then .error .missingInput
         else
           match parse s with
           | .error msg => .error (.parseFailure msg)
           | .ok ast =>
               match findSymbol symbolName ast with
               | none => .error (.symbolNotFound symbolName)
               | some span => .ok span,
   st)

/-- The result of the external `webcrack` transform: the rewritten main
code and, when a bundle was detected, its module map. -/
structure WcResult where
  code : String
  bundle : Option (List (String × Module))

/-- Model of `deobfuscate` (tools.ts lines 255-319).  `rf` models
`readFile` and `wc` models `webcrack(source, {unpack, mangle, jsx})`.
The module map starts from the detected bundle (or empty), optionally
drops vendor units, and always installs the `"(entry)"` virtual unit
before the new state is published.  The Prettier formatting of the
`returnCode` response is external, so that branch returns the pre-format
response text. -/
def deobfuscate (rf : String → Except ToolError String)
    (wc : String → Bool → Bool → Bool → Except String WcResult)
    (code : Option String) (unbundle : Bool) (filePath : Option String)
    (returnCode : Bool) (mangle : Bool) (jsx : Bool) (skipVendor : Bool)
    (st : ServerState) : Except ToolError String × ServerState :=
  let resolved : Except ToolError (Option String) :=
    match filePath with
    | some p => (rf p).map some
    | none => .ok code
  match resolved with
  | .error e => (.error e, st)
  | .ok sc =>
    match sc with
    | none => (.error .missingInput, st)
    | some s =>
      if s = "" then (.error .missingInput, st)
      else
        match wc s unbundle mangle jsx with
        | .error msg => (.error (.transformError msg), st)
        | .ok r =>
          let modules0 : List (String × Module) := r.bundle.getD []
          let kept : List (String × Module) :=
            if skipVendor && r.bundle.isSome then
              modules0.filter (fun p => !(isVendorModule p.2.path))
            else modules0
          let removedCount : Nat := modules0.length - kept.length
          let modules : List (String × Module) :=
            mapSet kept "(entry)" ⟨"(entry)", "Main Entry Point", r.code⟩
          let st' : ServerState := ⟨some ⟨modules⟩⟩
          if returnCode then
            let responseText : String :=
              match r.bundle with
              | some bm =>
                  "// Unbundled " ++ toString bm.length ++
                    " modules.\n// Use 'list_modules' to see them all.\n// Main entry point:\n" ++
                    r.code
              | none => r.code
            (.ok responseText, st')
          else
            let summary : String :=
              "Deobfuscation complete.\nModules found: " ++ toString modules.length ++
                " (including main entry)\nTotal code length: " ++ toString r.code.length ++
                " characters (main entry)\nThe code has been cached in memory." ++
                (if 0 < removedCount then "\nSkipped vendor modules: " ++ toString removedCount
                 else "") ++
                "\nUse 'list_modules' to inspect individual modules.\nTo see the full deobfuscated code, run this tool again with 'returnCode: true'."
            (.ok summary, st')

/-! ### Claim-side definitions

These follow the specification's wording, to be compared with the
definitions translated from the source. -/

mutual
/-- Claim-side: the declarations matching the symbol that are not nested
inside another matching declaration, in pre-order. -/
def outermostTargets (symbolName : String) : Ast → List Ast
  | .fnDecl i id params body =>
      if isTarget symbolName (.fnDecl i id params body) then [.fnDecl i id params body]
      else outermostTargetsL symbolName params ++ outermostTargets symbolName body
  | .fnExpr _ params body =>
      outermostTargetsL symbolName params ++ outermostTargets symbolName body
  | .arrowFnExpr _ params body =>
      outermostTargetsL symbolName params ++ outermostTargets symbolName body
  | .classDecl i id body =>
      if isTarget symbolName (.classDecl i id body) then [.classDecl i id body]
      else outermostTargetsL symbolName body
  | .classMethod _ key params body =>
      outermostTargets symbolName key ++
        (outermostTargetsL symbolName params ++ outermostTargets symbolName body)
  | .objectMethod _ key params body =>
      outermostTargets symbolName key ++
        (outermostTargetsL symbolName params ++ outermostTargets symbolName body)
  | .varDecl _ _ decls => outermostTargetsL symbolName decls
  | .varDeclarator _ idPat none => outermostTargets symbolName idPat
  | .varDeclarator i idPat (some init) =>
      if isTarget symbolName (.varDeclarator i idPat (some init)) then
        [.varDeclarator i idPat (some init)]
      else outermostTargets symbolName idPat ++ outermostTargets symbolName init
  | .callExpr _ callee args =>
      outermostTargets symbolName callee ++ outermostTargetsL symbolName args
  | .memberExpr _ obj prop =>
      outermostTargets symbolName obj ++ outermostTargets symbolName prop
  | .identifier _ _ => []
  | .assignPattern _ left right =>
      outermostTargets symbolName left ++ outermostTargets symbolName right
  | .restElement _ arg => outermostTargets symbolName arg
  | .objectPattern _ props => outermostTargetsL symbolName props
  | .arrayPattern _ elems => outermostTargetsL symbolName elems
  | .otherNode _ _ children => outermostTargetsL symbolName children

def outermostTargetsL (symbolName : String) : List Ast → List Ast
  | [] => []
  | a :: rest => outermostTargets symbolName a ++ outermostTargetsL symbolName rest
end

/-- Claim-side (C2): the first matching declaration in pre-order. -/
def firstTarget (symbolName : String) (a : Ast) : Option Ast :=
  (preorderNodes a).find? (isTarget symbolName)

/-- The outgoing list claim C2 asserts: the calls found inside the first
matching declaration's subtree only, and empty when there is none. -/
def claimedOutgoing (symbolName : String) (a : Ast) : List OutEdge :=
  match firstTarget symbolName a with
  | none => []
  | some d => callsIn d

/-- The caller labelling claim C3 asserts: resolve the nearest enclosing
function-like ancestor to its name / bound variable / method key, with
`"(anonymous function)"` for every other enclosing function-like shape
and `"(top-level)"` exactly when no enclosing function exists. -/
def claimedCallerLabel : List Ast → String
  | [] => "(top-level)"
  | f :: rest =>
      if isFunctionNode f then
        (match f with
         | .fnDecl _ (some n) _ _ => n
         | .fnExpr _ _ _ =>
             (match rest.head? with
              | some (.varDeclarator _ (.identifier _ vn) _) => vn
              | some (.classMethod _ (.identifier _ kn) _ _) => kn
              | _ => "(anonymous function)")
         | .arrowFnExpr _ _ _ =>
             (match rest.head? with
              | some (.varDeclarator _ (.identifier _ vn) _) => vn
              | some (.classMethod _ (.identifier _ kn) _ _) => kn
              | _ => "(anonymous function)")
         | .classMethod _ (.identifier _ kn) _ _ => kn
         | _ => "(anonymous function)")
      else claimedCallerLabel rest

/-- Claim-side (C4): is the node a variable declaration statement with
exactly one declarator, located at the given span? -/
def isOneDeclaratorStmtAt (span : Nat × Nat) : Ast → Bool
  | .varDecl i _ decls =>
      decls.length == 1 && (i.startPos == span.1 && i.endPos == span.2)
  | _ => false

/-! ### Concrete fixtures

Small concrete units with the trees Babel produces for them, used as
counterexample and witness inputs.  A parse stub maps each unit's text to
its tree and everything else to a syntax error. -/

/-- A `readFile` stub that fails on every path. -/
def rfNone : String → Except ToolError String := fun p => .error (.fileError p)

/-- Tree of `"function f()\x7b\x7d"`. -/
def astF : Ast :=
  .otherNode ⟨0, 15, 1, 1⟩ "Program"
    [.fnDecl ⟨0, 15, 1, 1⟩ (some "f") [] (.otherNode ⟨12, 15, 1, 1⟩ "BlockStatement" [])]

def parseF : String → Except String Ast :=
  fun s => if s = "function f()\x7b\x7d" then .ok astF else .error "SyntaxError"

/-- Text `"function f()\x7b a(); \x7d\nfunction f()\x7b b(); \x7d"`: two sibling
function declarations with the same name. -/
def codeTwo : String := "function f()\x7b a(); \x7d\nfunction f()\x7b b(); \x7d"

def fnOne : Ast :=
  .fnDecl ⟨0, 20, 1, 1⟩ (some "f") []
    (.otherNode ⟨12, 20, 1, 1⟩ "BlockStatement"
      [.otherNode ⟨14, 18, 1, 1⟩ "ExpressionStatement"
        [.callExpr ⟨14, 17, 1, 1⟩ (.identifier ⟨14, 15, 1, 1⟩ "a") []]])

def fnTwo : Ast :=
  .fnDecl ⟨21, 41, 2, 2⟩ (some "f") []
    (.otherNode ⟨33, 41, 2, 2⟩ "BlockStatement"
      [.otherNode ⟨35, 39, 2, 2⟩ "ExpressionStatement"
        [.callExpr ⟨35, 38, 2, 2⟩ (.identifier ⟨35, 36, 2, 2⟩ "b") []]])

def astTwo : Ast := .otherNode ⟨0, 41, 1, 2⟩ "Program" [fnOne, fnTwo]

def parseTwo : String → Except String Ast :=
  fun s => if s = codeTwo then .ok astTwo else .error "SyntaxError"

/-- Cache holding `codeTwo` as module `"m1"`. -/
def stTwo : ServerState := ⟨some ⟨[("m1", ⟨"m1", "src/two.js", codeTwo⟩)]⟩⟩

/-- Text `"const o = \x7b m()\x7b f(); \x7d \x7d;"`: a call site inside an object
method. -/
def codeObj : String := "const o = \x7b m()\x7b f(); \x7d \x7d;"

def objCallF : Ast := .callExpr ⟨17, 20, 1, 1⟩ (.identifier ⟨17, 18, 1, 1⟩ "f") []

def objStmt : Ast := .otherNode ⟨17, 21, 1, 1⟩ "ExpressionStatement" [objCallF]

def objBlock : Ast := .otherNode ⟨15, 23, 1, 1⟩ "BlockStatement" [objStmt]

def objMethodM : Ast :=
  .objectMethod ⟨12, 23, 1, 1⟩ (.identifier ⟨12, 13, 1, 1⟩ "m") [] objBlock

def objLit : Ast := .otherNode ⟨10, 25, 1, 1⟩ "ObjectExpression" [objMethodM]

def objDeclO : Ast :=
  .varDeclarator ⟨6, 25, 1, 1⟩ (.identifier ⟨6, 7, 1, 1⟩ "o") (some objLit)

def objVar : Ast := .varDecl ⟨0, 26, 1, 1⟩ "const" [objDeclO]

def astObj : Ast := .otherNode ⟨0, 26, 1, 1⟩ "Program" [objVar]

def parseObj : String → Except String Ast :=
  fun s => if s = codeObj then .ok astObj else .error "SyntaxError"

/-- Cache holding `codeObj` as module `"mo"`. -/
def stObj : ServerState := ⟨some ⟨[("mo", ⟨"mo", "src/obj.js", codeObj⟩)]⟩⟩

/-- The ancestor stack (nearest first) of the `f()` call site in `astObj`. -/
def ancObjCall : List Ast :=
  [objStmt, objBlock, objMethodM, objLit, objDeclO, objVar, astObj]

/-- Text `"var a = 1, b = 2;"`: one declaration statement with two
declarators. -/
def codeV : String := "var a = 1, b = 2;"

def declA : Ast :=
  .varDeclarator ⟨4, 9, 1, 1⟩ (.identifier ⟨4, 5, 1, 1⟩ "a")
    (some (.otherNode ⟨8, 9, 1, 1⟩ "NumericLiteral" []))

def declB : Ast :=
  .varDeclarator ⟨11, 16, 1, 1⟩ (.identifier ⟨11, 12, 1, 1⟩ "b")
    (some (.otherNode ⟨15, 16, 1, 1⟩ "NumericLiteral" []))

def varAB : Ast := .varDecl ⟨0, 16, 1, 1⟩ "var" [declA, declB]

def astV : Ast := .otherNode ⟨0, 17, 1, 1⟩ "Program" [varAB]

def parseV : String → Except String Ast :=
  fun s => if s = codeV then .ok astV else .error "SyntaxError"

/-- Text `"function myFunc(a,b)\x7breturn a+b;\x7d"`. -/
def codeMyFunc : String := "function myFunc(a,b)\x7breturn a+b;\x7d"

def astMyFunc : Ast :=
  .otherNode ⟨0, 33, 1, 1⟩ "Program"
    [.fnDecl ⟨0, 33, 1, 1⟩ (some "myFunc")
      [.identifier ⟨16, 17, 1, 1⟩ "a", .identifier ⟨18, 19, 1, 1⟩ "b"]
      (.otherNode ⟨20, 33, 1, 1⟩ "BlockStatement"
        [.otherNode ⟨21, 32, 1, 1⟩ "ReturnStatement" []])]

def parseMyFunc : String → Except String Ast :=
  fun s => if s = codeMyFunc then .ok astMyFunc else .error "SyntaxError"

/-- Cache holding `codeMyFunc` as module `"mf"`. -/
def stMyFunc : ServerState := ⟨some ⟨[("mf", ⟨"mf", "src/my.js", codeMyFunc⟩)]⟩⟩












/-- Is the node a bare identifier? -/
def isIdentNode : Ast → Bool
  | .identifier _ _ => true
  | _ => false

/-- The scan `strContains` agrees with the decidable claim-side
containment. -/
theorem strContains_eq_decide (s pat : String) :
    strContains s pat = decide (SpecContains s pat) := by
  by_cases h : SpecContains s pat
  · rw [(strContains_iff s pat).mpr h, decide_eq_true h]
  · rw [decide_eq_false h]
    by_contra hc
    exact h ((strContains_iff s pat).mp (by
      cases hb : strContains s pat with
      | true => rfl
      | false => exact absurd hb hc))

/-- On success, both edge lists of a call graph are duplicate-free. -/
def nodupGraph : Except ToolError CallGraph → Prop
  | .ok g => g.outgoing.Nodup ∧ g.incoming.Nodup
  | .error _ => True

/-- C6: `getCallGraph` deduplicates both edge lists by full structural
equality before returning them: no two distinct entries of the returned
outgoing (resp. incoming) list are equal. -/
theorem c6_callgraph_edges_nodup :
    ∀ (parse : String → Except String Ast) (symbolName moduleId : String)
      (scanAll : Bool) (st : ServerState),
      nodupGraph (getCallGraph parse symbolName moduleId scanAll st).1 := by
  intro parse symbolName moduleId scanAll st
  obtain ⟨lb⟩ := st
  cases lb with
  | none => simp [getCallGraph, nodupGraph]
  | some b =>
      cases hm : mapGet b.modules moduleId with
      | none => simp [getCallGraph, nodupGraph, hm]
      | some target =>
          simpa [getCallGraph, nodupGraph, hm] using
            ⟨dedupFirst_nodup _, dedupFirst_nodup _⟩

/-- C7: the origin classifier returns `true` exactly when the
slash-normalized path contains one of the eight fixed case-sensitive
vendor substrings; an empty path is never vendor; and the two reference
paths classify as the specification states. -/
theorem c7_vendor_classifier :
    (∀ path : String, isVendorModule path = true ↔
        path ≠ "" ∧ ∃ p ∈ vendorPatterns, SpecContains (normalizeSlashes path) p) ∧
    isVendorModule "" = false ∧
    isVendorModule "node_modules/x/y.js" = true ∧
    isVendorModule "./src/app.js" = false := by
  refine ⟨fun path => ?_, rfl, by rfl, by rfl⟩
  rw [isVendorModule]
  by_cases hp : path = ""
  · simp [hp]
  · rw [if_neg hp]
    simp only [List.any_eq_true, ne_eq, hp, not_false_iff, true_and]
    constructor
    · rintro ⟨p, hmem, hc⟩; exact ⟨p, hmem, (strContains_iff _ _).mp hc⟩
    · rintro ⟨p, hmem, hc⟩; exact ⟨p, hmem, (strContains_iff _ _).mpr hc⟩

/-- C8: parameter rendering — a plain identifier by its name, an
identifier with a default as the name plus `"?"`, a named rest parameter
as `"..."` plus the name, and destructured object or array patterns as
the literal `"{destructured}"` placeholder; moreover the inventory of
`function myFunc(a,b){return a+b;}` lists exactly `myFunc` with
parameters `["a", "b"]` and signature `"function myFunc(a, b)"`. -/
theorem c8_param_rendering :
    (∀ (i : NodeInfo) (n : String), renderParam (.identifier i n) = n) ∧
    (∀ (i j : NodeInfo) (n : String) (rhs : Ast),
        renderParam (.assignPattern i (.identifier j n) rhs) = n ++ "?") ∧
    (∀ (i j : NodeInfo) (n : String),
        renderParam (.restElement i (.identifier j n)) = "..." ++ n) ∧
    (∀ (i : NodeInfo) (props : List Ast),
        renderParam (.objectPattern i props) = "{destructured}") ∧
    (∀ (i : NodeInfo) (elems : List Ast),
        renderParam (.arrayPattern i elems) = "{destructured}") ∧
    (listFunctions parseMyFunc none 50 stMyFunc).1 =
      .ok [⟨"mf", "src/my.js", "myFunc", "function", 1, ["a", "b"], 1,
            "function myFunc(a, b)"⟩] :=
  ⟨fun _ _ => rfl, fun _ _ _ _ => rfl, fun _ _ _ => rfl, fun _ _ => rfl,
   fun _ _ => rfl, rfl⟩

/-- C9: every query operation — module listing, module get, module
search, symbol inventory, call-graph building and symbol-source
extraction — returns the shared cache state unchanged; only
`deobfuscate` installs a new snapshot. -/
theorem c9_queries_preserve_state :
    ∀ (excludeVendor : Bool) (id : String)
      (newRegExp : String → String → Option (String → Bool))
      (query : String) (isRegex : Bool) (limit : Nat)
      (parse : String → Except String Ast) (moduleId : Option String)
      (symbolName mid : String) (scanAll : Bool)
      (rf : String → Except ToolError String)
      (code filePath : Option String) (st : ServerState),
      (listModules excludeVendor st).2 = st ∧
      (getModule id st).2 = st ∧
      (searchModules newRegExp query isRegex limit st).2 = st ∧
      (listFunctions parse moduleId limit st).2 = st ∧
      (getCallGraph parse symbolName mid scanAll st).2 = st ∧
      (getSymbolSource parse rf symbolName code moduleId filePath st).2 = st :=
  fun _ _ _ _ _ _ _ _ _ _ _ _ _ _ _ => ⟨rfl, rfl, rfl, rfl, rfl, rfl⟩

/-- C1 counterexample: with an empty cache, symbol-source extraction on
inline code succeeds — it does not fail `NoBundle`.  The cache is only
consulted when a module id is supplied. -/
theorem c1_counterexample :
    (getSymbolSource parseF rfNone "f" (some "function f()\x7b\x7d") none none ⟨none⟩).1 =
        .ok (0, 15) ∧
    (getSymbolSource parseF rfNone "f" (some "function f()\x7b\x7d") none none ⟨none⟩).1 ≠
        .error .noBundle :=
  ⟨rfl, fun h => Except.noConfusion h⟩

/-- C1 amended: with no live snapshot, module listing, module get, module
search, symbol inventory and call-graph building fail `NoBundle`
regardless of their other arguments; symbol-source extraction consults
the cache only when a module id is supplied — it then fails `NoBundle`
whether the source text came inline or from a readable file. -/
theorem c1_amended :
    ∀ (excludeVendor : Bool) (id : String)
      (newRegExp : String → String → Option (String → Bool))
      (query : String) (isRegex : Bool) (limit : Nat)
      (parse : String → Except String Ast) (moduleId : Option String)
      (symbolName mid : String) (scanAll : Bool)
      (rf : String → Except ToolError String) (code : Option String),
      (listModules excludeVendor ⟨none⟩).1 = .error .noBundle ∧
      (getModule id ⟨none⟩).1 = .error .noBundle ∧
      (searchModules newRegExp query isRegex limit ⟨none⟩).1 = .error .noBundle ∧
      (listFunctions parse moduleId limit ⟨none⟩).1 = .error .noBundle ∧
      (getCallGraph parse symbolName mid scanAll ⟨none⟩).1 = .error .noBundle ∧
      (getSymbolSource parse rf symbolName code (some mid) none ⟨none⟩).1 =
        .error .noBundle ∧
      (∀ (p s : String), rf p = .ok s →
        (getSymbolSource parse rf symbolName code (some mid) (some p) ⟨none⟩).1 =
          .error .noBundle) :=
  fun _ _ _ _ _ _ _ _ _ _ _ rf _ =>
    ⟨rfl, rfl, rfl, rfl, rfl, rfl,
     fun p s h => by simp [getSymbolSource, Except.map, h]⟩

/-- C1 amended, witness at a concrete input. -/
theorem c1_amended_witness :
    (getSymbolSource parseF (fun _ => .ok codeV) "f" none (some "m") (some "p")
        ⟨none⟩).1 = .error .noBundle :=
  (c1_amended false "i" (fun _ _ => none) "q" false 5 parseF none "f" "m" false
      (fun _ => .ok codeV) none).2.2.2.2.2.2 "p" codeV rfl

mutual
/-- The skip-traversal of the outgoing phase decomposes as: each
outermost matching declaration contributes the calls of its subtree. -/
theorem outgoingScan_eq_targets (symbolName : String) :
    ∀ a : Ast, outgoingScan symbolName a =
      (outermostTargets symbolName a).flatMap callsIn
  | .fnDecl i id params body => by
      by_cases h : isTarget symbolName (.fnDecl i id params body)
      · simp [outgoingScan, outermostTargets, h]
      · simp [outgoingScan, outermostTargets, h,
          outgoingScanL_eq_targets symbolName params,
          outgoingScan_eq_targets symbolName body]
  | .fnExpr _ params body => by
      simp [outgoingScan, outermostTargets,
        outgoingScanL_eq_targets symbolName params,
        outgoingScan_eq_targets symbolName body]
  | .arrowFnExpr _ params body => by
      simp [outgoingScan, outermostTargets,
        outgoingScanL_eq_targets symbolName params,
        outgoingScan_eq_targets symbolName body]
  | .classDecl i id body => by
      by_cases h : isTarget symbolName (.classDecl i id body)
      · simp [outgoingScan, outermostTargets, h]
      · simp [outgoingScan, outermostTargets, h,
          outgoingScanL_eq_targets symbolName body]
  | .classMethod _ key params body => by
      simp [outgoingScan, outermostTargets,
        outgoingScan_eq_targets symbolName key,
        outgoingScanL_eq_targets symbolName params,
        outgoingScan_eq_targets symbolName body]
  | .objectMethod _ key params body => by
      simp [outgoingScan, outermostTargets,
        outgoingScan_eq_targets symbolName key,
        outgoingScanL_eq_targets symbolName params,
        outgoingScan_eq_targets symbolName body]
  | .varDecl _ _ decls => by
      simp [outgoingScan, outermostTargets,
        outgoingScanL_eq_targets symbolName decls]
  | .varDeclarator _ idPat none => by
      simp [outgoingScan, outermostTargets,
        outgoingScan_eq_targets symbolName idPat]
  | .varDeclarator i idPat (some init) => by
      by_cases h : isTarget symbolName (.varDeclarator i idPat (some init))
      · simp [outgoingScan, outermostTargets, h]
      · simp [outgoingScan, outermostTargets, h,
          outgoingScan_eq_targets symbolName idPat,
          outgoingScan_eq_targets symbolName init]
  | .callExpr _ callee args => by
      simp [outgoingScan, outermostTargets,
        outgoingScan_eq_targets symbolName callee,
        outgoingScanL_eq_targets symbolName args]
  | .memberExpr _ obj prop => by
      simp [outgoingScan, outermostTargets,
        outgoingScan_eq_targets symbolName obj,
        outgoingScan_eq_targets symbolName prop]
  | .identifier _ _ => by simp [outgoingScan, outermostTargets]
  | .assignPattern _ left right => by
      simp [outgoingScan, outermostTargets,
        outgoingScan_eq_targets symbolName left,
        outgoingScan_eq_targets symbolName right]
  | .restElement _ arg => by
      simp [outgoingScan, outermostTargets,
        outgoingScan_eq_targets symbolName arg]
  | .objectPattern _ props => by
      simp [outgoingScan, outermostTargets,
        outgoingScanL_eq_targets symbolName props]
  | .arrayPattern _ elems => by
      simp [outgoingScan, outermostTargets,
        outgoingScanL_eq_targets symbolName elems]
  | .otherNode _ _ children => by
      simp [outgoingScan, outermostTargets,
        outgoingScanL_eq_targets symbolName children]

theorem outgoingScanL_eq_targets (symbolName : String) :
    ∀ l : List Ast, outgoingScanL symbolName l =
      (outermostTargetsL symbolName l).flatMap callsIn
  | [] => by simp [outgoingScanL, outermostTargetsL]
  | a :: rest => by
      simp [outgoingScanL, outermostTargetsL,
        outgoingScan_eq_targets symbolName a,
        outgoingScanL_eq_targets symbolName rest]
end

/-- C2 counterexample: in a unit with two sibling declarations named
`f`, the second declaration also contributes outgoing edges —
`path.skip()` only skips the matched subtree, the traversal does not
stop at the first match as the claim asserts. -/
theorem c2_counterexample :
    (getCallGraph parseTwo "f" "m1" false stTwo).1 =
        .ok ⟨"f", "m1", [⟨"a", 1⟩, ⟨"b", 2⟩], []⟩ ∧
    claimedOutgoing "f" astTwo = [⟨"a", 1⟩] ∧
    (⟨"b", 2⟩ : OutEdge) ∉ claimedOutgoing "f" astTwo :=
  ⟨rfl, rfl, by decide⟩

/-- C2 amended: the outgoing list contains exactly the call expressions
found inside the subtree of every outermost matching declaration, in
pre-order (a matching declaration nested inside another match is covered
once, by the enclosing match's subtree); each edge is named by the bare
identifier callee, `"<object>.<property>"` for a member callee with
identifier object, or `".<property>"` otherwise; and when no declaration
matches, outgoing is empty rather than an error. -/
theorem c2_amended :
    (∀ (symbolName : String) (a : Ast),
        outgoingScan symbolName a = (outermostTargets symbolName a).flatMap callsIn) ∧
    (∀ (symbolName : String) (a : Ast),
        outermostTargets symbolName a = [] → outgoingScan symbolName a = []) ∧
    (∀ (i : NodeInfo) (callee : Ast) (args : List Ast),
        edgeOfCall (.callExpr i callee args) =
          if calleeNameOf callee = "" then none
          else some ⟨calleeNameOf callee, i.startLine⟩) ∧
    (∀ (j : NodeInfo) (n : String), calleeNameOf (.identifier j n) = n) ∧
    (∀ (j k l : NodeInfo) (objName pn : String),
        calleeNameOf (.memberExpr j (.identifier k objName) (.identifier l pn)) =
          objName ++ "." ++ pn) ∧
    (∀ (j l : NodeInfo) (obj : Ast) (pn : String), isIdentNode obj = false →
        calleeNameOf (.memberExpr j obj (.identifier l pn)) = "." ++ pn) := by
  refine ⟨fun s a => outgoingScan_eq_targets s a,
    fun s a h => by rw [outgoingScan_eq_targets s a, h]; rfl,
    fun _ _ _ => rfl, fun _ _ => rfl, fun _ _ _ _ _ => rfl,
    fun j l obj pn h => ?_⟩
  cases obj <;> simp_all [calleeNameOf, isIdentNode]

/-- C2 amended, witness at concrete inputs. -/
theorem c2_amended_witness :
    outgoingScan "zz" astTwo = [] ∧
    calleeNameOf (.memberExpr ⟨0, 0, 1, 1⟩
        (.otherNode ⟨0, 0, 1, 1⟩ "CallExpression" [])
        (.identifier ⟨0, 0, 1, 1⟩ "p")) = "." ++ "p" :=
  ⟨c2_amended.2.1 "zz" astTwo (by rfl), c2_amended.2.2.2.2.2 _ _ _ _ rfl⟩

/-- Walking past non-function ancestors does not change the resolved
caller. -/
theorem resolveCaller_append (pre post : List Ast)
    (h : ∀ x ∈ pre, isFunctionNode x = false) :
    resolveCaller (pre ++ post) = resolveCaller post := by
  induction pre with
  | nil => rfl
  | cons x rest ih =>
      have hx := h x (List.mem_cons_self x rest)
      rw [List.cons_append, resolveCaller, hx]
      simp only [Bool.false_eq_true, if_false]
      exact ih (fun y hy => h y (List.mem_cons_of_mem x hy))

/-- C3 counterexample: a call site inside an object method.  The code
labels the caller `"(top-level)"` although an enclosing function-like
node (the object method) exists, where the claim requires
`"(anonymous function)"` for such a shape and reserves `"(top-level)"`
for call sites with no enclosing function. -/
theorem c3_counterexample :
    (getCallGraph parseObj "f" "mo" false stObj).1 =
        .ok ⟨"f", "mo", [], [⟨"mo", "(top-level)", 1⟩]⟩ ∧
    (preoAnc [] astObj).filterMap
        (fun p => if isMatchingCall "f" p.2 then some p.1 else none) = [ancObjCall] ∧
    ancObjCall.filter isFunctionNode = [objMethodM] ∧
    resolveCaller ancObjCall = "(top-level)" ∧
    claimedCallerLabel ancObjCall = "(anonymous function)" :=
  ⟨rfl, rfl, rfl, rfl, rfl⟩

/-- C3 amended: the caller label of an incoming edge is resolved from
the nearest enclosing function-like ancestor as: the name of a named
function declaration; the variable name for a function/arrow expression
bound to a variable declarator; the key name of a class method with an
identifier key; `"(anonymous function)"` for an otherwise-anchored
function or arrow expression; and `"(top-level)"` both when there is no
enclosing function at all and for the remaining function-like shapes the
labelling chain falls through on (unnamed function declarations, object
methods, class methods with non-identifier keys). -/
theorem c3_amended :
    (∀ anc : List Ast, (∀ x ∈ anc, isFunctionNode x = false) →
        resolveCaller anc = "(top-level)") ∧
    (∀ (pre post : List Ast) (f : Ast), (∀ x ∈ pre, isFunctionNode x = false) →
        isFunctionNode f = true →
        resolveCaller (pre ++ f :: post) = labelForFunc f post.head?) ∧
    (∀ (name modId : String) (a : Ast),
        incomingIn name modId a = (preoAnc [] a).filterMap (fun p =>
          if isMatchingCall name p.2 then
            some ⟨modId, resolveCaller p.1, (astInfo p.2).startLine⟩
          else none)) ∧
    (∀ (i : NodeInfo) (n : String) (params : List Ast) (body : Ast)
        (parent? : Option Ast),
        labelForFunc (.fnDecl i (some n) params body) parent? = n) ∧
    (∀ (i j k : NodeInfo) (params : List Ast) (body : Ast) (vn : String)
        (init : Option Ast),
        labelForFunc (.fnExpr i params body)
            (some (.varDeclarator j (.identifier k vn) init)) = vn ∧
        labelForFunc (.arrowFnExpr i params body)
            (some (.varDeclarator j (.identifier k vn) init)) = vn) ∧
    (∀ (i j : NodeInfo) (kn : String) (mparams : List Ast) (mbody : Ast)
        (parent? : Option Ast),
        labelForFunc (.classMethod i (.identifier j kn) mparams mbody) parent? = kn) ∧
    (∀ (i : NodeInfo) (params : List Ast) (body : Ast),
        labelForFunc (.fnExpr i params body) none = "(anonymous function)" ∧
        labelForFunc (.arrowFnExpr i params body) none = "(anonymous function)") ∧
    (∀ (i : NodeInfo) (params : List Ast) (body : Ast) (parent? : Option Ast),
        labelForFunc (.fnDecl i none params body) parent? = "(top-level)") ∧
    (∀ (i : NodeInfo) (key : Ast) (mparams : List Ast) (mbody : Ast)
        (parent? : Option Ast),
        labelForFunc (.objectMethod i key mparams mbody) parent? = "(top-level)") ∧
    (∀ (i : NodeInfo) (key : Ast) (mparams : List Ast) (mbody : Ast)
        (parent? : Option Ast), isIdentNode key = false →
        labelForFunc (.classMethod i key mparams mbody) parent? = "(top-level)") := by
  refine ⟨?_, ?_, fun _ _ _ => rfl, fun _ _ _ _ _ => rfl,
    fun _ _ _ _ _ _ _ => ⟨rfl, rfl⟩, fun _ _ _ _ _ _ => rfl,
    fun _ _ _ => ⟨rfl, rfl⟩, fun _ _ _ _ => rfl, fun _ _ _ _ _ => rfl,
    fun i key mparams mbody parent? h => ?_⟩
  · intro anc h
    have := resolveCaller_append anc [] h
    simpa using this
  · intro pre post f hpre hf
    rw [resolveCaller_append pre (f :: post) hpre, resolveCaller, hf, if_pos rfl]
  · cases key <;> simp_all [labelForFunc, isIdentNode]

/-- C3 amended, witness at a concrete input. -/
theorem c3_amended_witness :
    resolveCaller ([objStmt, objBlock] ++ objMethodM :: [objLit]) =
      labelForFunc objMethodM (some objLit) :=
  c3_amended.2.1 [objStmt, objBlock] [objLit] objMethodM (by decide) rfl

/-- C4 counterexample: extracting `b` from `var a = 1, b = 2;` returns
the span of the whole two-declarator statement — the tree contains no
single-declarator statement with the returned span, so the promotion is
to the full enclosing declaration, not to a single-declarator
statement. -/
theorem c4_counterexample :
    (getSymbolSource parseV rfNone "b" (some codeV) none none ⟨none⟩).1 =
        .ok (0, 16) ∧
    (preorderNodes astV).filter
        (fun n => (astInfo n).startPos == 0 && (astInfo n).endPos == 16) = [varAB] ∧
    (preorderNodes astV).filter (isOneDeclaratorStmtAt (0, 16)) = [] :=
  ⟨rfl, rfl, rfl⟩

/-- C4 amended: symbol-source extraction returns the span of the first
pre-order node matching the name among function declarations, class
declarations and variable declarators with an identifier binding; a
matching declarator's span is promoted to the span of the enclosing
variable declaration statement (its keyword and all of its declarators,
however many); declarators binding destructuring patterns never match;
and when no node matches, the operation fails `SymbolNotFound`. -/
theorem c4_amended :
    (∀ (symbolName : String) (a : Ast) (pre : List (List Ast × Ast))
        (anc : List Ast) (n : Ast) (post : List (List Ast × Ast)) (sp : Nat × Nat),
        preoAnc [] a = pre ++ (anc, n) :: post →
        (∀ q ∈ pre, symbolMatchSpan symbolName q.1 q.2 = none) →
        symbolMatchSpan symbolName anc n = some sp →
        findSymbol symbolName a = some sp) ∧
    (∀ (symbolName : String) (i j pi : NodeInfo) (n : String) (init : Option Ast)
        (kw : String) (decls : List Ast) (rest : List Ast), n = symbolName →
        symbolMatchSpan symbolName (.varDecl pi kw decls :: rest)
          (.varDeclarator i (.identifier j n) init) = some (pi.startPos, pi.endPos)) ∧
    (∀ (symbolName : String) (anc : List Ast) (i j : NodeInfo)
        (props : List Ast) (init : Option Ast),
        symbolMatchSpan symbolName anc
          (.varDeclarator i (.objectPattern j props) init) = none) ∧
    (∀ (symbolName : String) (anc : List Ast) (i j : NodeInfo)
        (elems : List Ast) (init : Option Ast),
        symbolMatchSpan symbolName anc
          (.varDeclarator i (.arrayPattern j elems) init) = none) ∧
    (∀ (parse : String → Except String Ast) (rf : String → Except ToolError String)
        (symbolName s : String) (ast : Ast) (st : ServerState),
        s ≠ "" → parse s = .ok ast → findSymbol symbolName ast = none →
        (getSymbolSource parse rf symbolName (some s) none none st).1 =
          .error (.symbolNotFound symbolName)) := by
  refine ⟨?_, ?_, fun _ _ _ _ _ _ => rfl, fun _ _ _ _ _ _ => rfl, ?_⟩
  · intro symbolName a pre anc n post sp hsplit hpre hmatch
    rw [findSymbol, hsplit, List.filterMap_append, List.head?_append]
    have hnil : pre.filterMap (fun p => symbolMatchSpan symbolName p.1 p.2) = [] :=
      List.filterMap_eq_nil_iff.mpr hpre
    rw [hnil]
    simp [List.filterMap_cons, hmatch]
  · intro symbolName i j pi n init kw decls rest h
    simp [symbolMatchSpan, h]
  · intro parse rf symbolName s ast st hs hparse hfind
    simp [getSymbolSource, hs, hparse, hfind]

/-- C4 amended, witness at concrete inputs. -/
theorem c4_amended_witness :
    (getSymbolSource parseF rfNone "zz" (some "function f()\x7b\x7d") none none
        ⟨none⟩).1 = .error (.symbolNotFound "zz") :=
  c4_amended.2.2.2.2 parseF rfNone "zz" "function f()\x7b\x7d" astF ⟨none⟩
    (by decide) rfl rfl

/-- C5: with a live snapshot, an invalid regex pattern fails
`InvalidPattern` whatever the cached units are (so before any unit is
scanned); literal search keeps exactly the units whose raw text contains
the query as a case-sensitive substring; a valid pattern — compiled with
the `"i"` (case-insensitive) flag — keeps exactly the units it tests
true on; in all cases snapshot order is preserved and the result is
truncated at the limit. -/
theorem c5_search :
    ∀ (newRegExp : String → String → Option (String → Bool))
      (query : String) (limit : Nat) (b : Bundle),
      (newRegExp query "i" = none →
        (searchModules newRegExp query true limit ⟨some b⟩).1 =
          .error (.invalidPattern query)) ∧
      ((searchModules newRegExp query false limit ⟨some b⟩).1 =
        .ok ((((b.modules.map (·.2)).filter
            (fun m => decide (SpecContains m.code query))).map
          (fun m => SearchHit.mk m.id m.path)).take limit)) ∧
      (∀ tst : String → Bool, newRegExp query "i" = some tst →
        (searchModules newRegExp query true limit ⟨some b⟩).1 =
          .ok ((((b.modules.map (·.2)).filter (fun m => tst m.code)).map
            (fun m => SearchHit.mk m.id m.path)).take limit)) := by
  intro newRegExp query limit b
  refine ⟨fun h => by simp [searchModules, h], ?_,
    fun tst h => by simp [searchModules, h]⟩
  have hcong : (b.modules.map (·.2)).filter (fun m => strContains m.code query) =
      (b.modules.map (·.2)).filter (fun m => decide (SpecContains m.code query)) :=
    List.filter_congr (fun m _ => strContains_eq_decide m.code query)
  exact congrArg (fun l =>
    (Except.ok ((l.map (fun m => SearchHit.mk m.id m.path)).take limit) :
      Except ToolError (List SearchHit))) hcong

/-- C5, witness at concrete inputs. -/
theorem c5_search_witness :
    (searchModules (fun _ _ => none) "(" true 5
        ⟨some ⟨[("m1", ⟨"m1", "p", "x"⟩)]⟩⟩).1 = .error (.invalidPattern "(") ∧
    (searchModules (fun _ _ => some (fun _ => true)) "q" true 5
        ⟨some ⟨[]⟩⟩).1 = .ok [] :=
  ⟨(c5_search (fun _ _ => none) "(" 5 ⟨[("m1", ⟨"m1", "p", "x"⟩)]⟩).1 rfl,
   by simpa using
     (c5_search (fun _ _ => some (fun _ => true)) "q" 5 ⟨[]⟩).2.2 (fun _ => true) rfl⟩

/-- C10: after every successful `deobfuscate`, the installed snapshot
holds a unit with id `"(entry)"`, path `"Main Entry Point"` and the
transform's main output code (overwriting any bundle unit with that id),
so the snapshot is never empty and `getModule "(entry)"` succeeds. -/
theorem c10_entry_invariant :
    ∀ (rf : String → Except ToolError String)
      (wc : String → Bool → Bool → Bool → Except String WcResult)
      (code : Option String) (unbundle : Bool) (filePath : Option String)
      (returnCode mangle jsx skipVendor : Bool) (st : ServerState)
      (out : String) (st' : ServerState),
      deobfuscate rf wc code unbundle filePath returnCode mangle jsx skipVendor st =
        (.ok out, st') →
      ∃ b : Bundle, st'.lastBundle = some b ∧ b.modules ≠ [] ∧
        ∃ m : Module, mapGet b.modules "(entry)" = some m ∧
          m.id = "(entry)" ∧ m.path = "Main Entry Point" ∧
          (∃ (s : String) (r : WcResult),
              wc s unbundle mangle jsx = .ok r ∧ m.code = r.code) ∧
          (getModule "(entry)" st').1 = .ok m.code := by
  intro rf wc code unbundle filePath returnCode mangle jsx skipVendor st out st' h
  simp only [deobfuscate] at h
  split at h
  · exact absurd (congrArg Prod.fst h) (by simp)
  · split at h
    · exact absurd (congrArg Prod.fst h) (by simp)
    · split at h
      · exact absurd (congrArg Prod.fst h) (by simp)
      · split at h
        · exact absurd (congrArg Prod.fst h) (by simp)
        · rename_i r hwc
          split at h
          · rw [Prod.mk.injEq] at h
            obtain ⟨hout, hst⟩ := h
            subst hst
            exact ⟨_, rfl, mapSet_ne_nil _ _ _,
              ⟨"(entry)", "Main Entry Point", r.code⟩, mapGet_mapSet_self _ _ _,
              rfl, rfl, ⟨_, r, hwc, rfl⟩, by simp [getModule, mapGet_mapSet_self]⟩
          · rw [Prod.mk.injEq] at h
            obtain ⟨hout, hst⟩ := h
            subst hst
            exact ⟨_, rfl, mapSet_ne_nil _ _ _,
              ⟨"(entry)", "Main Entry Point", r.code⟩, mapGet_mapSet_self _ _ _,
              rfl, rfl, ⟨_, r, hwc, rfl⟩, by simp [getModule, mapGet_mapSet_self]⟩

/-- A `webcrack` stub that rewrites any input to `"OUT"` and detects no
bundle. -/
def wcStubPlain : String → Bool → Bool → Bool → Except String WcResult :=
  fun _ _ _ _ => .ok ⟨"OUT", none⟩

/-- C10, witness at a concrete input. -/
theorem c10_entry_invariant_witness :
    ∃ b : Bundle,
      (ServerState.mk
          (some ⟨[("(entry)", ⟨"(entry)", "Main Entry Point", "OUT"⟩)]⟩)).lastBundle
        = some b ∧ b.modules ≠ [] ∧
      ∃ m : Module, mapGet b.modules "(entry)" = some m ∧
        m.id = "(entry)" ∧ m.path = "Main Entry Point" ∧
        (∃ (s : String) (r : WcResult),
            wcStubPlain s true false false = .ok r ∧ m.code = r.code) ∧
        (getModule "(entry)"
            ⟨some ⟨[("(entry)", ⟨"(entry)", "Main Entry Point", "OUT"⟩)]⟩⟩).1 =
          .ok m.code :=
  c10_entry_invariant rfNone wcStubPlain (some "in") true none true false false false
    ⟨none⟩ "OUT" _ rfl

end DeobMcp
